import Mathlib

/-!
Shallow embedding of src/bin/nb-pin.py, a small CLI that posts one bookmark
to pinboard.in via a single HTTP GET, reading an auth token from a local
config file after checking its permission bits.

Strings are modelled by Lean strings; Python primitives (str.strip,
str.startswith, str.partition, str.translate deletion) are re-implemented
faithfully below.  The filesystem is modelled by an optional ConfigFile
(stat mode plus the list of lines); the HTTP layer by an HttpResult that is
either a status code or a transport exception.  Printing is modelled as the
list of printed lines, in order.
-/

namespace NbPin

/-- Characters stripped by Python 2 str.strip() with no argument. -/
def pyIsSpace (c : Char) : Bool :=
  c = ' ' || c = '\t' || c = '\n' || c = '\r' || c = '\x0b' || c = '\x0c'

/-- Python str.strip() on a character list: drop whitespace at both ends. -/
def pyStripData (l : List Char) : List Char :=
  ((l.dropWhile pyIsSpace).reverse.dropWhile pyIsSpace).reverse

/-- Python str.strip() (line.strip() in get_auth_token). -/
def pyStrip (s : String) : String := ⟨pyStripData s.data⟩

/-- Python s.startswith(p). -/
def startswithB (s p : String) : Bool := p.data.isPrefixOf s.data

/-- Split a character list at the first occurrence of the character =,
returning the parts before and after it, or none when = does not occur. -/
def partitionEqData : List Char → Option (List Char × List Char)
  | [] => none
  | c :: cs =>
    if c = '=' then some ([], cs)
    else
      match partitionEqData cs with
      | some (a, b) => some (c :: a, b)
      | none => none

/-- Python line.partition("="), reduced to the (head, tail) pair actually
used by get_auth_token: when = occurs, the text before and after the first
occurrence; otherwise (line, ""). -/
def pyPartitionEq (s : String) : String × String :=
  match partitionEqData s.data with
  | some (a, b) => (⟨a⟩, ⟨b⟩)
  | none => (s, "")

/-- The line-scanning loop of get_auth_token: strip each line, skip blank
lines and lines starting with #, and return the value part of the first
line whose partition head equals auth_token; return "" when no line
matches. -/
def tokenScan : List String → String
  | [] => ""
  | l :: ls =>
    let line := pyStrip l
    if line = "" ∨ startswithB line "#" = true then tokenScan ls
    else if (pyPartitionEq line).1 = "auth_token" then (pyPartitionEq line).2
    else tokenScan ls

/-- A config file as get_auth_token observes it: its stat mode and its
lines (each line as Python yields it, trailing newline immaterial since
every line is stripped first). -/
structure ConfigFile where
  mode : Nat
  lines : List String
  deriving DecidableEq

/-- stat.S_IRWXG: group read/write/execute bits. -/
def S_IRWXG : Nat := 0o070

/-- stat.S_IRWXO: other read/write/execute bits. -/
def S_IRWXO : Nat := 0o007

/-- get_auth_token from nb-pin.py: raise (modelled as Except.error, with
the exact message) when the mode has any group/other bit set, otherwise
scan the lines for the token. -/
def get_auth_token (cfg : ConfigFile) (config_file : String) : Except String String :=
  if cfg.mode &&& (S_IRWXG ||| S_IRWXO) ≠ 0 then
    Except.error ("ERROR: " ++ config_file ++ " should not be accessable to others")
  else
    Except.ok (tokenScan cfg.lines)

/-- The parsed command-line arguments (argparse Namespace). tag is None
when -t was never passed, else the list of occurrences; description
defaults to the empty string. -/
structure Args where
  config : String
  tag : Option (List String)
  replace : Bool
  shared : Bool
  later : Bool
  debug : Bool
  url : String
  title : String
  description : String
  deriving DecidableEq

/-- The module-level debug flag of nb-pin.py: initialised to False and
never reassigned (main only binds a local of the same name). -/
def debug : Bool := false

/-- Python t.translate(None, " ,"): delete every space and comma. -/
def translateDelSpaceComma (s : String) : String :=
  ⟨s.data.filter (fun c => !(c = ' ' || c = ','))⟩

/-- The payload dictionary built in Pinboard.__init__, as an association
list in insertion order.  extended is added only when desc is truthy
(non-empty); tags only when the tag list is truthy (not None, not empty),
joining with spaces the translated tags, where falsy (empty) tags are
filtered out before translation. -/
def buildPayload (url title desc auth_token : String) (tags : Option (List String))
    (replace shared toread : Bool) : List (String × String) :=
  [("url", url), ("description", title), ("auth_token", auth_token)]
    ++ (if desc ≠ "" then [("extended", desc)] else [])
    ++ (match tags with
        | some ts =>
          if ts ≠ [] then
            [("tags", String.intercalate " "
              ((ts.filter (fun t => t ≠ "")).map translateDelSpaceComma))]
          else []
        | none => [])
    ++ [("replace", if replace then "yes" else "no"),
        ("shared", if shared then "yes" else "no"),
        ("toread", if toread then "yes" else "no")]

/-- First-match lookup in an association list of strings. -/
def plookup : List (String × String) → String → Option String
  | [], _ => none
  | (k, v) :: rest, key => if k = key then some v else plookup rest key

/-- Python repr of a plain string (single quotes; the strings at play
contain no quote or escape characters). -/
def pyReprStr (s : String) : String := "\x27" ++ s ++ "\x27"

/-- Python repr of the payload dict, entries rendered in insertion
order. -/
def pyReprDict (p : List (String × String)) : String :=
  "\x7b" ++ String.intercalate ", "
    (p.map (fun kv => pyReprStr kv.1 ++ ": " ++ pyReprStr kv.2)) ++ "\x7d"

/-- Python repr of a bool. -/
def pyReprBool (b : Bool) : String := if b then "True" else "False"

/-- Python repr of the tag attribute: None or a list of strings. -/
def pyReprTags : Option (List String) → String
  | none => "None"
  | some ts => "[" ++ String.intercalate ", " (ts.map pyReprStr) ++ "]"

/-- print(args): argparse Namespace repr, attributes sorted by name. -/
def pyReprArgs (a : Args) : String :=
  "Namespace(config=" ++ pyReprStr a.config ++ ", debug=" ++ pyReprBool a.debug ++
    ", description=" ++ pyReprStr a.description ++ ", later=" ++ pyReprBool a.later ++
    ", replace=" ++ pyReprBool a.replace ++ ", shared=" ++ pyReprBool a.shared ++
    ", tag=" ++ pyReprTags a.tag ++ ", title=" ++ pyReprStr a.title ++
    ", url=" ++ pyReprStr a.url ++ ")"

/-- Outcome of requests.get: an HTTP response with a status code, or a
raised transport exception with its message. -/
inductive HttpResult where
  | response (status : Nat)
  | exn (message : String)
  deriving DecidableEq

/-- The error line printed on a non-200 status:
"ERROR: Status code %s for %s" % (r.status_code, payload). -/
def errStatusLine (status : Nat) (payload : List (String × String)) : String :=
  "ERROR: Status code " ++ Nat.repr status ++ " for " ++ pyReprDict payload

/-- The error line printed on a transport exception:
"ERROR for %s: %s" % (payload, e). -/
def errExnLine (payload : List (String × String)) (message : String) : String :=
  "ERROR for " ++ pyReprDict payload ++ ": " ++ message

/-- The printing behaviour of Pinboard.__init__ after the payload is
built: an optional debug dump of the payload (guarded by the module-level
debug flag), then the GET, whose non-200 status or exception produces one
error line. -/
def pinboardSubmit (payload : List (String × String)) (http : HttpResult) : List String :=
  (if debug then [pyReprDict payload] else [])
    ++ (match http with
        | HttpResult.response st => if st ≠ 200 then [errStatusLine st payload] else []
        | HttpResult.exn msg => [errExnLine payload msg])

/-- Observable result of one run of main: the process exit status, the
printed lines in order, and the query-parameter map of the HTTP request
when one was issued. -/
structure RunResult where
  exitCode : Nat
  output : List String
  request : Option (List (String × String))
  deriving DecidableEq

/-- main from nb-pin.py, after argument parsing: bind the local debug and
possibly print the args; exit 1 if the config file does not exist; exit 1
printing the exception text if get_auth_token raises; otherwise construct
Pinboard (which issues the request) and fall off the end (exit 0). -/
def mainRun (args : Args) (cfg : Option ConfigFile) (http : HttpResult) : RunResult :=
  let dbgOut := if args.debug then [pyReprArgs args] else []
  match cfg with
  | none => ⟨1, dbgOut ++ ["ERROR: Config file " ++ args.config ++ " doesn\x27t exist"], none⟩
  | some c =>
    match get_auth_token c args.config with
    | Except.error e => ⟨1, dbgOut ++ [e], none⟩
    | Except.ok tok =>
      let payload := buildPayload args.url args.title args.description tok
        args.tag args.replace args.shared args.later
      ⟨0, dbgOut ++ pinboardSubmit payload http, some payload⟩

/-- Reading of claim C1's general sentence, following its words: the value
of the first auth_token= line (the text after the auth_token= marker of
the first stripped line starting with it), skipping blank lines and lines
starting with #; empty when no such line exists. -/
def specFirstToken : List String → String
  | [] => ""
  | l :: ls =>
    let line := pyStrip l
    if line = "" ∨ startswithB line "#" = true then specFirstToken ls
    else if startswithB line "auth_token=" = true then ⟨line.data.drop 11⟩
    else specFirstToken ls

/-- Reading of claim C4's words: the space-joined concatenation of the
tags with every space and comma character removed from each tag. -/
def specTagsValue (ts : List String) : String :=
  String.intercalate " " (ts.map translateDelSpaceComma)

/-- Substring test on character lists (Python in operator on str). -/
def containsSub : List Char → List Char → Bool
  | [], n => n.isPrefixOf []
  | c :: t, n => n.isPrefixOf (c :: t) || containsSub t n

/-- A fixed parsed argument vector used for concrete runs. -/
def argsEx : Args :=
  ⟨"/home/u/.pinboard-auth", none, false, false, false, false,
    "http://example.com/", "A title", ""⟩

/-- The same argument vector with the debug flag set. -/
def argsDbg : Args :=
  ⟨"/home/u/.pinboard-auth", none, false, false, false, true,
    "http://example.com/", "A title", ""⟩

/-! Helper lemmas about payload lookups, shared by several results below. -/

theorem plookup_buildPayload_url (url title desc tok : String) (tags : Option (List String))
    (r s t : Bool) : plookup (buildPayload url title desc tok tags r s t) "url" = some url := by
  simp [buildPayload, plookup]

theorem plookup_buildPayload_description (url title desc tok : String)
    (tags : Option (List String)) (r s t : Bool) :
    plookup (buildPayload url title desc tok tags r s t) "description" = some title := by
  simp [buildPayload, plookup]

theorem plookup_buildPayload_auth (url title desc tok : String) (tags : Option (List String))
    (r s t : Bool) :
    plookup (buildPayload url title desc tok tags r s t) "auth_token" = some tok := by
  simp [buildPayload, plookup]

theorem plookup_buildPayload_extended (url title desc tok : String) (tags : Option (List String))
    (r s t : Bool) :
    plookup (buildPayload url title desc tok tags r s t) "extended" =
      (if desc = "" then none else some desc) := by
  by_cases hd : desc = "" <;>
    rcases tags with _ | ts <;>
      simp [buildPayload, plookup, hd] <;>
        by_cases ht : ts = [] <;> simp [ht, plookup]

theorem plookup_buildPayload_tags (url title desc tok : String) (ts : List String)
    (r s t : Bool) :
    plookup (buildPayload url title desc tok (some ts) r s t) "tags" =
      (if ts = [] then none
       else some (String.intercalate " "
         ((ts.filter (fun x => x ≠ "")).map translateDelSpaceComma))) := by
  by_cases hd : desc = "" <;> by_cases ht : ts = [] <;>
    simp [buildPayload, plookup, hd, ht]

theorem plookup_buildPayload_tags_none (url title desc tok : String) (r s t : Bool) :
    plookup (buildPayload url title desc tok none r s t) "tags" = none := by
  by_cases hd : desc = "" <;> simp [buildPayload, plookup, hd]

theorem plookup_buildPayload_replace (url title desc tok : String) (tags : Option (List String))
    (r s t : Bool) :
    plookup (buildPayload url title desc tok tags r s t) "replace" =
      some (if r then "yes" else "no") := by
  by_cases hd : desc = "" <;>
    rcases tags with _ | ts <;>
      simp [buildPayload, plookup, hd] <;>
        by_cases ht : ts = [] <;> simp [ht, plookup]

theorem plookup_buildPayload_shared (url title desc tok : String) (tags : Option (List String))
    (r s t : Bool) :
    plookup (buildPayload url title desc tok tags r s t) "shared" =
      some (if s then "yes" else "no") := by
  by_cases hd : desc = "" <;>
    rcases tags with _ | ts <;>
      simp [buildPayload, plookup, hd] <;>
        by_cases ht : ts = [] <;> simp [ht, plookup]

theorem plookup_buildPayload_toread (url title desc tok : String) (tags : Option (List String))
    (r s t : Bool) :
    plookup (buildPayload url title desc tok tags r s t) "toread" =
      some (if t then "yes" else "no") := by
  by_cases hd : desc = "" <;>
    rcases tags with _ | ts <;>
      simp [buildPayload, plookup, hd] <;>
        by_cases ht : ts = [] <;> simp [ht, plookup]

/-- Claim C2: the process exits with status 1 exactly when the config file
is missing or its mode has a group/other read/write/execute bit set, and
with status 0 in every other case, whatever the HTTP outcome. -/
theorem C2_exit_code (args : Args) (cfg : Option ConfigFile) (http : HttpResult) :
    (mainRun args cfg http).exitCode =
      (match cfg with
       | none => 1
       | some c => if c.mode &&& (S_IRWXG ||| S_IRWXO) ≠ 0 then 1 else 0) := by
  cases cfg with
  | none => rfl
  | some c =>
    by_cases h : c.mode &&& (S_IRWXG ||| S_IRWXO) ≠ 0 <;>
      simp [mainRun, get_auth_token, h]

/-- Claim C3: the payload maps url to the CLI url, description to the CLI
title, auth_token to the loaded token; a non-empty description appears
under extended, and an empty one leaves the extended key out entirely. -/
theorem C3_payload_core_keys (url title desc tok : String) (tags : Option (List String))
    (r s t : Bool) :
    plookup (buildPayload url title desc tok tags r s t) "url" = some url ∧
    plookup (buildPayload url title desc tok tags r s t) "description" = some title ∧
    plookup (buildPayload url title desc tok tags r s t) "auth_token" = some tok ∧
    plookup (buildPayload url title desc tok tags r s t) "extended" =
      (if desc = "" then none else some desc) :=
  ⟨plookup_buildPayload_url url title desc tok tags r s t,
   plookup_buildPayload_description url title desc tok tags r s t,
   plookup_buildPayload_auth url title desc tok tags r s t,
   plookup_buildPayload_extended url title desc tok tags r s t⟩

/-- Claim C4 as stated is false: an empty tag is dropped by the list
comprehension filter before joining, so the payload value for the tag list
["foo", ""] is "foo", while the space-joined concatenation of the
per-tag-translated tags would be "foo " (with a trailing space). -/
theorem C4_counterexample :
    plookup (buildPayload "u" "t" "" "k" (some ["foo", ""]) false false false) "tags" =
      some "foo" ∧
    specTagsValue ["foo", ""] = "foo " ∧ ("foo" : String) ≠ "foo " := by
  refine ⟨by decide, by decide, by decide⟩

/-- Claim C4, amended: for a supplied tag list the payload's tags value is
the space-joined concatenation, with empty tags dropped, of the remaining
tags with every space and comma removed; the payload has no tags key when
the tag list is absent (or empty); the list ["foo bar", "baz,qux"] yields
"foobar bazqux". -/
theorem C4_tags_value (url title desc tok : String) (r s t : Bool) :
    (∀ ts : List String,
      plookup (buildPayload url title desc tok (some ts) r s t) "tags" =
        (if ts = [] then none
         else some (specTagsValue (ts.filter (fun x => x ≠ ""))))) ∧
    plookup (buildPayload url title desc tok none r s t) "tags" = none ∧
    specTagsValue (["foo bar", "baz,qux"].filter (fun x => x ≠ "")) = "foobar bazqux" := by
  refine ⟨fun ts => ?_, plookup_buildPayload_tags_none url title desc tok r s t, by decide⟩
  rw [plookup_buildPayload_tags url title desc tok ts r s t]
  simp [specTagsValue]

/-- Claim C5: replace, shared and toread are always present in the
payload, each serialized as the literal string yes when the corresponding
boolean is true and no when it is false. -/
theorem C5_bool_flags (url title desc tok : String) (tags : Option (List String))
    (r s t : Bool) :
    plookup (buildPayload url title desc tok tags r s t) "replace" =
      some (if r then "yes" else "no") ∧
    plookup (buildPayload url title desc tok tags r s t) "shared" =
      some (if s then "yes" else "no") ∧
    plookup (buildPayload url title desc tok tags r s t) "toread" =
      some (if t then "yes" else "no") :=
  ⟨plookup_buildPayload_replace url title desc tok tags r s t,
   plookup_buildPayload_shared url title desc tok tags r s t,
   plookup_buildPayload_toread url title desc tok tags r s t⟩

/-! Substring lemmas for the error-line results. -/

theorem isPrefixOf_self_append (n z : List Char) : n.isPrefixOf (n ++ z) = true := by
  simp [List.isPrefixOf_iff_prefix]

theorem containsSub_of_isPrefixOf {h n : List Char} (hp : n.isPrefixOf h = true) :
    containsSub h n = true := by
  cases h with
  | nil => simpa [containsSub] using hp
  | cons c t => simp [containsSub, hp]

theorem containsSub_append_right (a : List Char) {h n : List Char}
    (hc : containsSub h n = true) : containsSub (a ++ h) n = true := by
  induction a with
  | nil => exact hc
  | cons c t ih => simp [containsSub, ih]

theorem containsSub_middle (a n z : List Char) : containsSub (a ++ (n ++ z)) n = true :=
  containsSub_append_right a (containsSub_of_isPrefixOf (isPrefixOf_self_append n z))

/-- Claim C6: on a non-200 status the submitter prints exactly the one
error line, which contains the status code; a transport exception likewise
produces exactly one error line; and the HTTP outcome never changes the
exit status of a run. -/
theorem C6_http_error_line (p : List (String × String)) (st : Nat) (h : st ≠ 200) :
    pinboardSubmit p (HttpResult.response st) = [errStatusLine st p] ∧
    containsSub (errStatusLine st p).data (Nat.repr st).data = true ∧
    (∀ m : String, pinboardSubmit p (HttpResult.exn m) = [errExnLine p m]) ∧
    (∀ (args : Args) (cfg : Option ConfigFile) (h1 h2 : HttpResult),
      (mainRun args cfg h1).exitCode = (mainRun args cfg h2).exitCode) := by
  refine ⟨by simp [pinboardSubmit, debug, h], ?_, fun m => by simp [pinboardSubmit, debug], ?_⟩
  · have hd : (errStatusLine st p).data =
        "ERROR: Status code ".data ++ ((Nat.repr st).data ++ (" for " ++ pyReprDict p).data) := by
      simp [errStatusLine]
    rw [hd]
    exact containsSub_middle _ _ _
  · intro args cfg h1 h2
    cases cfg with
    | none => rfl
    | some c => cases hg : get_auth_token c args.config <;> simp [mainRun, hg]

/-- Witness for C6 at a concrete payload and status 500. -/
theorem C6_witness :
    pinboardSubmit [("url", "u")] (HttpResult.response 500) =
      [errStatusLine 500 [("url", "u")]] ∧
    containsSub (errStatusLine 500 [("url", "u")]).data (Nat.repr 500).data = true :=
  ⟨(C6_http_error_line [("url", "u")] 500 (by decide)).1,
   (C6_http_error_line [("url", "u")] 500 (by decide)).2.1⟩

/-- Claim C7 as stated is false: with debug off, two runs that differ only
in the token stored in the config file print different output when the
HTTP GET returns status 500, because the error line embeds the whole
payload, token included. -/
theorem C7_counterexample :
    argsEx.debug = false ∧
    (mainRun argsEx (some ⟨0o600, ["auth_token=AAA"]⟩) (HttpResult.response 500)).output ≠
      (mainRun argsEx (some ⟨0o600, ["auth_token=BBB"]⟩) (HttpResult.response 500)).output := by
  refine ⟨rfl, by decide⟩

/-- Claim C7, amended: when debug is not enabled and the HTTP GET returns
status 200, the printed output is independent of the config file contents,
hence of the token; only the HTTP error paths print the payload and with
it the token. -/
theorem C7_token_not_in_output (args : Args) (m : Nat) (l1 l2 : List String)
    (h : args.debug = false) :
    (mainRun args (some ⟨m, l1⟩) (HttpResult.response 200)).output =
      (mainRun args (some ⟨m, l2⟩) (HttpResult.response 200)).output := by
  by_cases hm : m &&& (S_IRWXG ||| S_IRWXO) ≠ 0 <;>
    simp [mainRun, get_auth_token, hm, pinboardSubmit, debug]

/-- Witness for C7 on two concrete runs differing only in the token. -/
theorem C7_witness :
    (mainRun argsEx (some ⟨0o600, ["auth_token=AAA"]⟩) (HttpResult.response 200)).output =
      (mainRun argsEx (some ⟨0o600, ["auth_token=BBB"]⟩) (HttpResult.response 200)).output :=
  C7_token_not_in_output argsEx 0o600 ["auth_token=AAA"] ["auth_token=BBB"] rfl

/-! Lemmas relating partitionEqData to membership and prefixes of the
character = in a line, used for the token-scanning results. -/

theorem partitionEqData_none_iff (l : List Char) : partitionEqData l = none ↔ '=' ∉ l := by
  induction l with
  | nil => simp [partitionEqData]
  | cons c cs ih =>
    by_cases hc : c = '='
    · simp [partitionEqData, hc]
    · have hc2 : ¬('=' = c) := fun hh => hc hh.symm
      cases hp : partitionEqData cs with
      | none => simp [partitionEqData, hc, hp, hc2, ih.mp hp]
      | some ab =>
        have hmem : '=' ∈ cs := by
          by_contra hnm
          rw [ih.mpr hnm] at hp
          exact Option.noConfusion hp
        simp [partitionEqData, hc, hp, hc2, hmem]

theorem partitionEqData_append {a : List Char} (b : List Char) (h : '=' ∉ a) :
    partitionEqData (a ++ '=' :: b) = some (a, b) := by
  induction a with
  | nil => simp [partitionEqData]
  | cons c cs ih =>
    have hc : ¬(c = '=') := fun hh => h (by simp [hh])
    have hcs : '=' ∉ cs := fun hm => h (List.mem_cons_of_mem _ hm)
    simp [partitionEqData, hc, ih hcs]

theorem partitionEqData_some {l : List Char} : ∀ {a b : List Char},
    partitionEqData l = some (a, b) → l = a ++ '=' :: b ∧ '=' ∉ a := by
  induction l with
  | nil => intro a b h; simp [partitionEqData] at h
  | cons c cs ih =>
    intro a b h
    by_cases hc : c = '='
    · subst hc
      simp [partitionEqData] at h
      obtain ⟨ha, hb⟩ := h
      subst ha
      subst hb
      simp
    · cases hp : partitionEqData cs with
      | none => simp [partitionEqData, hc, hp] at h
      | some ab =>
        obtain ⟨a0, b0⟩ := ab
        simp [partitionEqData, hc, hp] at h
        obtain ⟨ha, hb⟩ := h
        obtain ⟨h1, h2⟩ := ih hp
        subst ha
        subst hb
        refine ⟨by simp [h1], ?_⟩
        intro hm
        rcases List.mem_cons.mp hm with he | he
        · exact hc he.symm
        · exact h2 he

theorem startswith_auth_iff (line : String) :
    startswithB line "auth_token=" = true ↔
      ∃ t : List Char, line.data = "auth_token".data ++ '=' :: t := by
  simp only [startswithB, List.isPrefixOf_iff_prefix]
  constructor
  · rintro ⟨t, ht⟩
    exact ⟨t, by rw [← ht]; rfl⟩
  · rintro ⟨t, ht⟩
    exact ⟨t, by rw [ht]; rfl⟩

theorem partition_key_auth_iff (line : String) :
    (pyPartitionEq line).1 = "auth_token" ↔
      (startswithB line "auth_token=" = true ∨ line = "auth_token") := by
  unfold pyPartitionEq
  cases hp : partitionEqData line.data with
  | none =>
    constructor
    · exact fun h => Or.inr h
    · rintro (hsw | hb)
      · obtain ⟨t, ht⟩ := (startswith_auth_iff line).mp hsw
        have hmem : '=' ∈ line.data := by rw [ht]; simp
        exact absurd hmem ((partitionEqData_none_iff _).mp hp)
      · exact hb
  | some ab =>
    obtain ⟨a, b⟩ := ab
    obtain ⟨hl, hna⟩ := partitionEqData_some hp
    constructor
    · intro h
      left
      apply (startswith_auth_iff line).mpr
      refine ⟨b, ?_⟩
      rw [hl]
      have hda : a = ("auth_token" : String).data := by
        have := congrArg String.data h
        simpa using this
      rw [hda]
    · rintro (hsw | hb)
      · obtain ⟨t, ht⟩ := (startswith_auth_iff line).mp hsw
        have h2 : partitionEqData line.data = some (("auth_token" : String).data, t) := by
          rw [ht]
          exact partitionEqData_append t (by decide)
        rw [hp] at h2
        have h3 := Option.some.inj h2
        have h4 : a = ("auth_token" : String).data := congrArg Prod.fst h3
        show (⟨a⟩ : String) = "auth_token"
        rw [h4]
      · exfalso
        have hmem : '=' ∈ line.data := by rw [hl]; simp
        rw [hb] at hmem
        exact absurd hmem (by decide)

theorem partition_value_startswith {line : String}
    (h : startswithB line "auth_token=" = true) :
    (pyPartitionEq line).1 = "auth_token" ∧
      (pyPartitionEq line).2 = ⟨line.data.drop 11⟩ := by
  obtain ⟨t, ht⟩ := (startswith_auth_iff line).mp h
  have h2 : partitionEqData line.data = some (("auth_token" : String).data, t) := by
    rw [ht]
    exact partitionEqData_append t (by decide)
  refine ⟨by simp [pyPartitionEq, h2], ?_⟩
  simp only [pyPartitionEq, h2]
  rw [ht]
  have h3 : ("auth_token" : String).data ++ '=' :: t = ("auth_token=" : String).data ++ t := rfl
  rw [h3, List.drop_left' (by decide)]

/-! Scanning lemmas: when the code's partition-based match and the spec's
first-auth_token=-line reading agree, and when a scan finds nothing. -/

theorem tokenScan_eq_specFirstToken {lines : List String}
    (h : ∀ l ∈ lines, pyStrip l ≠ "auth_token") :
    tokenScan lines = specFirstToken lines := by
  induction lines with
  | nil => rfl
  | cons l ls ih =>
    have hl : pyStrip l ≠ "auth_token" := h l (List.mem_cons_self l ls)
    have ht : ∀ x ∈ ls, pyStrip x ≠ "auth_token" := fun x hx => h x (List.mem_cons_of_mem l hx)
    by_cases hb : pyStrip l = "" ∨ startswithB (pyStrip l) "#" = true
    · simp [tokenScan, specFirstToken, hb, ih ht]
    · by_cases hm : (pyPartitionEq (pyStrip l)).1 = "auth_token"
      · have hsw : startswithB (pyStrip l) "auth_token=" = true := by
          rcases (partition_key_auth_iff (pyStrip l)).mp hm with hs | hbare
          · exact hs
          · exact absurd hbare hl
        obtain ⟨_, hv⟩ := partition_value_startswith hsw
        simp [tokenScan, specFirstToken, hb, hm, hsw, hv]
      · have hsw : ¬startswithB (pyStrip l) "auth_token=" = true := fun hs =>
          hm ((partition_key_auth_iff (pyStrip l)).mpr (Or.inl hs))
        simp [tokenScan, specFirstToken, hb, hm, hsw, ih ht]

theorem tokenScan_eq_empty {lines : List String}
    (h : ∀ l ∈ lines, startswithB (pyStrip l) "auth_token=" = false) :
    tokenScan lines = "" := by
  induction lines with
  | nil => rfl
  | cons l ls ih =>
    have hl : startswithB (pyStrip l) "auth_token=" = false := h l (List.mem_cons_self l ls)
    have ht : ∀ x ∈ ls, startswithB (pyStrip x) "auth_token=" = false :=
      fun x hx => h x (List.mem_cons_of_mem l hx)
    by_cases hb : pyStrip l = "" ∨ startswithB (pyStrip l) "#" = true
    · simp [tokenScan, hb, ih ht]
    · by_cases hm : (pyPartitionEq (pyStrip l)).1 = "auth_token"
      · rcases (partition_key_auth_iff (pyStrip l)).mp hm with hs | hbare
        · rw [hl] at hs
          exact absurd hs (by simp)
        · simp [tokenScan, hb, hm, hbare]
          rw [if_neg (by decide), if_pos (by decide)]
          decide
      · simp [tokenScan, hb, hm, ih ht]

/-- Claim C1 as stated is false: in a 0600-mode file whose first line is
the bare string auth_token (no equals sign) and whose second line is
auth_token=ABC123, get_auth_token returns the empty value of the first
line, not the value ABC123 of the first auth_token= line. -/
theorem C1_counterexample :
    get_auth_token ⟨0o600, ["auth_token", "auth_token=ABC123"]⟩ "~/.pinboard-auth" =
      Except.ok "" ∧
    specFirstToken ["auth_token", "auth_token=ABC123"] = "ABC123" ∧
    ("" : String) ≠ "ABC123" :=
  ⟨rfl, by decide, by decide⟩

/-- Claim C1, amended: for a config file whose mode has no group/other
bits and none of whose stripped lines is the bare string auth_token,
get_auth_token returns the value of the first auth_token= line, skipping
blank lines and lines starting with the hash character (and the empty
string when there is none); in particular a 0600 file containing
auth_token=ABC123 yields ABC123. -/
theorem C1_first_token_line (m : Nat) (lines : List String) (path : String)
    (h1 : m &&& (S_IRWXG ||| S_IRWXO) = 0)
    (h2 : ∀ l ∈ lines, pyStrip l ≠ "auth_token") :
    get_auth_token ⟨m, lines⟩ path = Except.ok (specFirstToken lines) := by
  simp [get_auth_token, h1, tokenScan_eq_specFirstToken h2]

/-- Witness for C1 on a concrete 0600 config file. -/
theorem C1_witness :
    get_auth_token ⟨0o600, ["# pinboard config", "", "auth_token=ABC123"]⟩ "~/.pinboard-auth" =
      Except.ok (specFirstToken ["# pinboard config", "", "auth_token=ABC123"]) ∧
    specFirstToken ["# pinboard config", "", "auth_token=ABC123"] = "ABC123" :=
  ⟨C1_first_token_line 0o600 ["# pinboard config", "", "auth_token=ABC123"]
      "~/.pinboard-auth" (by decide) (by decide),
   by decide⟩

/-- Claim C8: a readable config file with safe permissions and no
auth_token= line makes get_auth_token return the empty string rather than
raise; the run exits with status 0 and the HTTP request is issued with an
empty auth_token value. -/
theorem C8_missing_token (args : Args) (m : Nat) (lines : List String) (http : HttpResult)
    (h1 : m &&& (S_IRWXG ||| S_IRWXO) = 0)
    (h2 : ∀ l ∈ lines, startswithB (pyStrip l) "auth_token=" = false) :
    get_auth_token ⟨m, lines⟩ args.config = Except.ok "" ∧
    (mainRun args (some ⟨m, lines⟩) http).exitCode = 0 ∧
    (∃ p, (mainRun args (some ⟨m, lines⟩) http).request = some p ∧
      plookup p "auth_token" = some "") := by
  have hget : get_auth_token ⟨m, lines⟩ args.config = Except.ok "" := by
    simp [get_auth_token, h1, tokenScan_eq_empty h2]
  refine ⟨hget, by simp [mainRun, hget], ?_⟩
  refine ⟨buildPayload args.url args.title args.description "" args.tag
    args.replace args.shared args.later, by simp [mainRun, hget], ?_⟩
  exact plookup_buildPayload_auth args.url args.title args.description ""
    args.tag args.replace args.shared args.later

/-- Witness for C8 on a concrete tokenless config file. -/
theorem C8_witness :
    get_auth_token ⟨0o600, ["# no token here", "other=1"]⟩ argsEx.config = Except.ok "" ∧
    (mainRun argsEx (some ⟨0o600, ["# no token here", "other=1"]⟩)
      (HttpResult.response 200)).exitCode = 0 ∧
    (∃ p, (mainRun argsEx (some ⟨0o600, ["# no token here", "other=1"]⟩)
        (HttpResult.response 200)).request = some p ∧
      plookup p "auth_token" = some "") :=
  C8_missing_token argsEx 0o600 ["# no token here", "other=1"]
    (HttpResult.response 200) (by decide) (by decide)

/-- Literal fact: a line of the form auth_token= followed by anything has
head character a, so it is neither empty nor a comment. -/
theorem append_auth_head (v : String) : ("auth_token=" ++ v).data.head? = some 'a' := rfl

theorem append_auth_ne_empty (v : String) : "auth_token=" ++ v ≠ "" := by
  intro h
  have h2 : ("auth_token=" ++ v).data.head? = none := by rw [h]; rfl
  rw [append_auth_head v] at h2
  exact Option.noConfusion h2

theorem append_auth_not_hash (v : String) : startswithB ("auth_token=" ++ v) "#" = false := rfl

theorem dropWhile_eq_self_of_not {p : Char → Bool} {l : List Char}
    (h : ∀ c ∈ l, p c = false) : l.dropWhile p = l := by
  cases l with
  | nil => rfl
  | cons c t => simp [List.dropWhile_cons, h c (by simp)]

theorem pyStrip_of_no_space {s : String} (h : ∀ c ∈ s.data, pyIsSpace c = false) :
    pyStrip s = s := by
  unfold pyStrip pyStripData
  rw [dropWhile_eq_self_of_not h,
    dropWhile_eq_self_of_not (fun c hc => h c (List.mem_reverse.mp hc)),
    List.reverse_reverse]

/-- Claim C9: token matching is exact on the stripped line split at the
first equals sign.  A whitespace-free value after auth_token= is returned
intact, equals signs and colons included, while a line with spaces around
the equals sign, such as auth_token = X, does not match and is skipped. -/
theorem C9_partition_semantics :
    (∀ (v : String) (rest : List String) (m : Nat) (path : String),
      m &&& (S_IRWXG ||| S_IRWXO) = 0 →
      (∀ c ∈ v.data, pyIsSpace c = false) →
      get_auth_token ⟨m, ("auth_token=" ++ v) :: rest⟩ path = Except.ok v) ∧
    (∀ (rest : List String) (m : Nat) (path : String),
      m &&& (S_IRWXG ||| S_IRWXO) = 0 →
      get_auth_token ⟨m, "auth_token = X" :: rest⟩ path =
        get_auth_token ⟨m, rest⟩ path) := by
  constructor
  · intro v rest m path hm hv
    have hall : ∀ c ∈ ("auth_token=" ++ v).data, pyIsSpace c = false := by
      intro c hc
      rw [String.data_append] at hc
      rcases List.mem_append.mp hc with h1 | h2
      · have hlit : ∀ c ∈ ("auth_token=" : String).data, pyIsSpace c = false := by decide
        exact hlit c h1
      · exact hv c h2
    have hstrip : pyStrip ("auth_token=" ++ v) = "auth_token=" ++ v := pyStrip_of_no_space hall
    have hsw : startswithB ("auth_token=" ++ v) "auth_token=" = true := by
      simp [startswithB, List.isPrefixOf_iff_prefix]
    obtain ⟨hk, hv2⟩ := partition_value_startswith hsw
    have hval : (⟨("auth_token=" ++ v).data.drop 11⟩ : String) = v := by
      rw [String.data_append, List.drop_left' (by decide)]
    simp [get_auth_token, hm, tokenScan, hstrip, append_auth_ne_empty v,
      append_auth_not_hash v, hk, hv2, hval]
  · intro rest m path hm
    have h1 : pyStrip "auth_token = X" = "auth_token = X" := rfl
    have h2 : ¬(("auth_token = X" : String) = "" ∨
        startswithB "auth_token = X" "#" = true) := by decide
    have h3 : ¬((pyPartitionEq "auth_token = X").1 = "auth_token") := by decide
    simp [get_auth_token, hm, tokenScan, h1, h2, h3]

/-- Witness for C9: a token value with colon and equals sign inside
survives intact, and a spaced auth_token = X line is skipped. -/
theorem C9_witness :
    get_auth_token ⟨0o600, ("auth_token=" ++ "USER:ab=cd") :: []⟩ "p" =
      Except.ok "USER:ab=cd" ∧
    get_auth_token ⟨0o600, "auth_token = X" :: ["auth_token=Y"]⟩ "p" =
      get_auth_token ⟨0o600, ["auth_token=Y"]⟩ "p" :=
  ⟨C9_partition_semantics.1 "USER:ab=cd" [] 0o600 "p" (by decide) (by decide),
   C9_partition_semantics.2 ["auth_token=Y"] 0o600 "p" (by decide)⟩

set_option maxRecDepth 4000 in
/-- Claim C10 as stated is false: on a debug run whose HTTP GET returns
status 500, the program prints the parsed arguments and then an error
line, and that error line embeds the request payload. -/
theorem C10_counterexample :
    argsDbg.debug = true ∧
    (mainRun argsDbg (some ⟨0o600, ["auth_token=AAA"]⟩) (HttpResult.response 500)).output =
      [pyReprArgs argsDbg,
       errStatusLine 500
         (buildPayload "http://example.com/" "A title" "" "AAA" none false false false)] ∧
    containsSub
      (errStatusLine 500
        (buildPayload "http://example.com/" "A title" "" "AAA" none false false false)).data
      (pyReprDict
        (buildPayload "http://example.com/" "A title" "" "AAA" none false false false)).data
      = true :=
  ⟨rfl, by decide, by decide⟩

/-- Claim C10, amended: passing debug prints the parsed command-line
arguments, and on a successful 200 run they are the only output; the
payload debug dump of Pinboard.__init__ never fires on any run, since it
consults the module-level debug flag, which stays False (main only binds a
local); the payload does still appear inside HTTP error lines. -/
theorem C10_debug_dump_never (args : Args) (c : ConfigFile) (http : HttpResult)
    (p : List (String × String)) (h1 : args.debug = true)
    (h2 : c.mode &&& (S_IRWXG ||| S_IRWXO) = 0) :
    (mainRun args (some c) (HttpResult.response 200)).output = [pyReprArgs args] ∧
    pyReprDict p ∉ pinboardSubmit p http := by
  constructor
  · simp [mainRun, get_auth_token, h2, h1, pinboardSubmit, debug]
  · intro hmem
    have hall : ∀ x ∈ pinboardSubmit p http, x.data.head? = some 'E' := by
      intro x hx
      cases http with
      | response st =>
        by_cases hst : st = 200
        · simp [pinboardSubmit, debug, hst] at hx
        · simp [pinboardSubmit, debug, hst] at hx
          rw [hx]
          rfl
      | exn msg =>
        simp [pinboardSubmit, debug] at hx
        rw [hx]
        rfl
    have hh := hall _ hmem
    have hb : (pyReprDict p).data.head? = some '\x7b' := rfl
    rw [hb] at hh
    exact absurd hh (by decide)

/-- Witness for C10 on a concrete debug run. -/
theorem C10_witness :
    (mainRun argsDbg (some ⟨0o600, ["auth_token=AAA"]⟩) (HttpResult.response 200)).output =
      [pyReprArgs argsDbg] ∧
    pyReprDict [("url", "u")] ∉ pinboardSubmit [("url", "u")] (HttpResult.response 500) :=
  C10_debug_dump_never argsDbg ⟨0o600, ["auth_token=AAA"]⟩ (HttpResult.response 500)
    [("url", "u")] rfl (by decide)

end NbPin
